import Mathlib

/-!
Verification of `scripts/samples/generate-whatsapp-dataset.py`, a synthetic
WhatsApp dataset generator.  The script builds a CSV of patient records
(date, nik, name, phone) under four modes (valid / invalid / mixed /
uniform) and optionally a FHIR-style patients JSON document.

Embedding conventions:
* Python `int` is modelled as `Int` (arbitrary precision, may be negative);
  indices produced by `range` are `Nat`.
* The Python `float` argument `valid_ratio` is carried as its exact
  rational value (every finite binary64 value is a rational; `IsDouble`
  says the value is representable).  Its single use, line 74's
  `int(math.floor(args.records * args.valid_ratio))`, is modelled
  bit-exactly: the int-to-float conversion and the int-times-float product
  round to nearest with ties to even on mantissa/exponent pairs
  (`floatOfInt`, `mulRound`), `none` modelling the `OverflowError` paths,
  and `math.floor` of the finite double result is an exact integer floor
  (`dyadicFloor`).
* Python decimal string formatting (`f"{x:016d}"`, `f"{n}"`) is modelled by
  an explicit base-10 digit function `decDigits`.
* The process-wide generator `random` (CPython `_randommodule.c`, MT19937
  with `init_by_array` seeding, `getrandbits`, `_randbelow_with_getrandbits`,
  `choice`) is embedded as a pure state-passing machine `MTState`; the
  624-word state is packed into a single natural number, 32 bits per word.
* File writing is modelled by the produced byte content: `write_csv`
  returns the CSV text, `write_patients_json` the document structure.
-/

namespace WhatsappGen

/-! ### Fixed data pools (lines 12-45 of the script) -/

def VALID_PHONES : List String :=
  ["081234567890", "085678901234", "082345678901", "083456789012",
   "087890123456"]

def UNIFORM_PHONES : List String :=
  ["081234567890", "6285678901234", "082345678901", "0834-5678-9012",
   "85678901234"]

def INVALID_PHONES : List String :=
  ["+630123456", "7123456789", "08123", "abcde12345", "", "620123456789"]

def VALID_NAMES : List String :=
  ["DEWI LESTARI SARI", "MAYA SARI PUTRI", "RINA PERMATA ANGGRAINI",
   "LINDA MARLINA SIREGAR"]

def INVALID_NAMES : List String :=
  ["INVALID FORMAT ONE", "INVALID FORMAT TWO", "INVALID FORMAT THREE",
   "INVALID FORMAT FOUR"]

/-! ### Decimal formatting (Python `f"{x:016d}"` and `f"{n}"`) -/

/-- A single decimal digit character; only called with `d < 10`. -/
def digitChar : Nat → Char
  | 0 => '0' | 1 => '1' | 2 => '2' | 3 => '3' | 4 => '4'
  | 5 => '5' | 6 => '6' | 7 => '7' | 8 => '8' | 9 => '9'
  | _ => '*'

/-- Base-10 digits, most significant first; `fuel` bounds the recursion and
is always sufficient at the call site (`n < 10 ^ fuel`). -/
def decDigitsAux : Nat → Nat → List Char
  | 0, _ => []
  | fuel + 1, n =>
    if n < 10 then [digitChar n]
    else decDigitsAux fuel (n / 10) ++ [digitChar (n % 10)]

/-- Base-10 digit list of `n`, most significant first (never empty);
`n + 1` units of fuel always suffice since `n < 10 ^ (n + 1)`. -/
def decDigits (n : Nat) : List Char := decDigitsAux (n + 1) n

/-- Python `str(n)` / `f"{n}"` for a nonnegative integer. -/
def pyStr (n : Nat) : String := String.mk (decDigits n)

/-- Left-pad a digit list with zeros to width 16 (Python `f"{x:016d}"`,
which pads to a minimum width and never truncates). -/
def zfill16 (l : List Char) : List Char :=
  List.replicate (16 - l.length) '0' ++ l

/-- `make_nik(base, idx)` = `f"{base + idx:016d}"` (script lines 68-69). -/
def make_nik (base idx : Nat) : String :=
  String.mk (zfill16 (decDigits (base + idx)))

/-- Numeric value encoded by a digit string (used to reason about
injectivity of `make_nik`). -/
def digitsVal (l : List Char) : Nat :=
  l.foldl (fun acc c => 10 * acc + (c.toNat - 48)) 0

/-- Numeric value of a decimal string. -/
def strVal (s : String) : Nat := digitsVal s.data

/-! ### CPython MT19937 (`_randommodule.c`), state packed into one `Nat` -/

/-- 2^32. -/
def W : Nat := 4294967296

/-- Word `i` of a packed 624-word state. -/
def wget (s i : Nat) : Nat := (s >>> (32 * i)) % W

/-- Set word `i` of a packed state to `v` (callers keep `v < W`). -/
def wset (s i v : Nat) : Nat :=
  s - ((wget s i) <<< (32 * i)) + (v <<< (32 * i))

/-- The loop of `init_genrand`: `k` remaining iterations, next index
`idx`, packed state `acc`.  The branch on `acc2 % 2` is the identity (both
arms are equal); it only makes weak-head evaluation compute each
intermediate state while the evaluation stack is still shallow. -/
def initGenrandLoop : Nat → Nat → Nat → Nat
  | 0, _, acc => acc
  | k + 1, idx, acc =>
    let prev := wget acc (idx - 1)
    let acc2 :=
      wset acc idx ((1812433253 * (prev ^^^ (prev >>> 30)) + idx) % W)
    if acc2 % 2 = 0 then initGenrandLoop k (idx + 1) acc2
    else initGenrandLoop k (idx + 1) acc2

/-- `init_genrand(s)`: fill the 624 words from a 32-bit seed. -/
def initGenrand (s : Nat) : Nat := initGenrandLoop 623 1 (s % W)

/-- The first `init_by_array` mixing loop; state is `(mt, i, j)`, with the
same shallow-evaluation branch as `initGenrandLoop`. -/
def mixKeyLoop (key : List Nat) : Nat → Nat × Nat × Nat → Nat × Nat × Nat
  | 0, st => st
  | k + 1, st =>
    let mt := st.1
    let i := st.2.1
    let j := st.2.2
    let prev := wget mt (i - 1)
    let v := ((wget mt i ^^^ (((prev ^^^ (prev >>> 30)) * 1664525) % W))
              + key.getD j 0 + j) % W
    let mt2 := wset mt i v
    let i2 := i + 1
    let j2 := j + 1
    let p := if 624 ≤ i2 then (wset mt2 0 (wget mt2 623), 1) else (mt2, i2)
    let j3 := if key.length ≤ j2 then 0 else j2
    if p.1 % 2 = 0 then mixKeyLoop key k (p.1, p.2, j3)
    else mixKeyLoop key k (p.1, p.2, j3)

/-- The second `init_by_array` mixing loop; state is `(mt, i)`; the C
`mt[i] - i` on `uint32_t` wraps modulo 2^32. -/
def mixDecLoop : Nat → Nat × Nat → Nat × Nat
  | 0, st => st
  | k + 1, st =>
    let mt := st.1
    let i := st.2
    let prev := wget mt (i - 1)
    let v := ((wget mt i ^^^ (((prev ^^^ (prev >>> 30)) * 1566083941) % W))
              + W - i) % W
    let mt2 := wset mt i v
    let i2 := i + 1
    let p := if 624 ≤ i2 then (wset mt2 0 (wget mt2 623), 1) else (mt2, i2)
    if p.1 % 2 = 0 then mixDecLoop k p else mixDecLoop k p

/-- `init_by_array(key)`: the packed 624-word state after seeding. -/
def initByArray (key : List Nat) : Nat :=
  let mt0 := initGenrand 19650218
  let k1 := max 624 key.length
  let s1 := mixKeyLoop key k1 (mt0, 1, 0)
  let s2 := mixDecLoop 623 (s1.1, s1.2.1)
  wset s2.1 0 2147483648

/-- Generator state: packed word array plus the index `mti`. -/
structure MTState where
  mt : Nat
  mti : Nat
deriving Repr, DecidableEq

/-- `random.seed(n)` for a nonnegative Python int `n`: the key is the
little-endian 32-bit limbs of `n`, and `mti` is left at 624 so the first
extraction twists. -/
def seedMT (key : List Nat) : MTState :=
  MTState.mk (initByArray key) 624

/-- The loop of the MT19937 twist, with the same shallow-evaluation
branch as the seeding loops. -/
def twistLoop : Nat → Nat → Nat → Nat
  | 0, _, acc => acc
  | k + 1, kk, acc =>
    let y := (wget acc kk &&& 2147483648)
             + (wget acc ((kk + 1) % 624) &&& 2147483647)
    let v := wget acc ((kk + 397) % 624) ^^^ (y >>> 1)
             ^^^ (if y % 2 = 1 then 2567483615 else 0)
    let acc2 := wset acc kk v
    if acc2 % 2 = 0 then twistLoop k (kk + 1) acc2
    else twistLoop k (kk + 1) acc2

/-- The MT19937 twist: regenerate all 624 words in place (in index order,
so later words read already-updated earlier words exactly as the C loop
does). -/
def twist (mt : Nat) : Nat := twistLoop 624 0 mt

/-- `genrand_uint32`: twist if exhausted, then read and temper one word. -/
def genrand_uint32 (st : MTState) : Nat × MTState :=
  let st := if 624 ≤ st.mti then MTState.mk (twist st.mt) 0 else st
  let y := wget st.mt st.mti
  let y := y ^^^ (y >>> 11)
  let y := y ^^^ ((y <<< 7) &&& 2636928640)
  let y := y ^^^ ((y <<< 15) &&& 4022730752)
  let y := y ^^^ (y >>> 18)
  (y, MTState.mk st.mt (st.mti + 1))

/-- `random.getrandbits(k)` for `k ≤ 32`: one word shifted down. -/
def getrandbits (k : Nat) (st : MTState) : Nat × MTState :=
  let r := genrand_uint32 st
  (r.1 >>> (32 - k), r.2)

/-- Python `int.bit_length` for a nonnegative value: the number of binary
digits; `n + 1` units of fuel always suffice. -/
def bitLengthAux : Nat → Nat → Nat
  | 0, _ => 0
  | fuel + 1, n => if n = 0 then 0 else bitLengthAux fuel (n / 2) + 1

/-- Python `int.bit_length` for a nonnegative value. -/
def bitLength (n : Nat) : Nat := bitLengthAux (n + 1) n

/-- The rejection loop of `_randbelow_with_getrandbits`; `fuel` bounds the
number of draws (CPython retries unboundedly; every use in this file
succeeds within the fuel). -/
def randbelowLoop : Nat → Nat → MTState → Nat × MTState
  | 0, _, st => (0, st)
  | fuel + 1, n, st =>
    let r := getrandbits (bitLength n) st
    if r.1 < n then r else randbelowLoop fuel n r.2

/-- `random._randbelow(n)`. -/
def randbelow (n : Nat) (st : MTState) : Nat × MTState :=
  randbelowLoop 64 n st

/-- `random.choice(seq)` = `seq[self._randbelow(len(seq))]`. -/
def random_choice (l : List String) (st : MTState) : String × MTState :=
  let r := randbelow l.length st
  (l.getD r.1 "", r.2)

/-! ### The generator program (script lines 48-161) -/

/-- `--mode` (argparse choices, line 53-57). -/
inductive Mode
  | valid
  | invalid
  | mixed
  | uniform
deriving Repr, DecidableEq

/-- The parsed CLI configuration used by `build_rows` and the writers. -/
structure Args where
  records : Int
  mode : Mode
  valid_ratio : Rat
  date : String
deriving Repr, DecidableEq

/-! ### IEEE-754 binary64 semantics of line 74

`args.records * args.valid_ratio` multiplies a Python int by a Python
float: CPython converts the int to binary64 (round to nearest, ties to
even; `OverflowError` above the largest finite double) and rounds the
product to binary64 again.  A finite double is a rational `m * 2 ^ e`;
this model computes on such mantissa/exponent pairs with integer
arithmetic only (shifts instead of powers, so everything evaluates), and
`math.floor` of the finite double result is an exact integer floor. -/

/-- `2 ^ k` as an integer, written with a shift so that it evaluates. -/
def pow2 (k : Nat) : Int := ((1 <<< k : Nat) : Int)

/-- Whether `den * 2 ^ b ≤ num`, for an exponent `b` of either sign. -/
def lePow2Mul (b : Int) (den num : Nat) : Bool :=
  if 0 ≤ b then den <<< b.toNat ≤ num else den ≤ num <<< (-b).toNat

/-- `⌊log2 (num / den)⌋` for positive `num` and `den` (junk at `num = 0`,
where every later mantissa is 0 anyway): the bit-length difference,
corrected by one comparison. -/
def ratLog2 (num den : Nat) : Int :=
  let b : Int := (bitLength num : Int) - (bitLength den : Int)
  if lePow2Mul b den num then b else b - 1

/-- Round `num / den` (`den > 0`) to the nearest integer, ties to even. -/
def rne (num den : Nat) : Nat :=
  let q := num / den
  let r := num % den
  if 2 * r < den then q
  else if den < 2 * r then q + 1
  else if q % 2 = 0 then q else q + 1

/-- Round the nonnegative rational `num / den` to binary64: `some (m, e)`
with value `m * 2 ^ e`, or `none` on overflow to infinity.  The grid step
is `2 ^ (⌊log2 x⌋ - 52)`, floored at the subnormal step `2 ^ (-1074)`;
the result overflows exactly when it reaches `2 ^ 1024`. -/
def roundPosToDouble (num den : Nat) : Option (Nat × Int) :=
  let e : Int := max (ratLog2 num den - 52) (-1074)
  let m := if 0 ≤ e then rne num (den <<< e.toNat)
           else rne (num <<< (-e).toNat) den
  if 0 ≤ e ∧ (1 <<< 1024 : Nat) ≤ m <<< e.toNat then none else some (m, e)

/-- Reapply the sign of `s` to a magnitude mantissa. -/
def applySign (s : Int) (m : Nat) : Int :=
  if s < 0 then -(m : Int) else (m : Int)

/-- Signed binary64 rounding of `num / den` (`den > 0`); round to nearest
is symmetric in the sign. -/
def roundToDouble (num : Int) (den : Nat) : Option (Int × Int) :=
  (roundPosToDouble num.natAbs den).map (fun r => (applySign num r.1, r.2))

/-- CPython's int-to-float conversion: round to nearest, ties to even;
`none` models the `OverflowError` above the largest finite double. -/
def floatOfInt (n : Int) : Option (Int × Int) := roundToDouble n 1

/-- Binary64 multiplication of the double `m1 * 2 ^ e1` by the double
whose rational value is `q`: the exact product, rounded back to
binary64. -/
def mulRound (m1 e1 : Int) (q : Rat) : Option (Int × Int) :=
  let p := m1 * q.num
  let num : Nat := if 0 ≤ e1 then p.natAbs <<< e1.toNat else p.natAbs
  let den : Nat := if 0 ≤ e1 then q.den else q.den <<< (-e1).toNat
  (roundPosToDouble num den).map (fun r => (applySign p r.1, r.2))

/-- `math.floor` of the finite double `m * 2 ^ e`, computed exactly
(euclidean division by a positive power of two is the floor). -/
def dyadicFloor (m e : Int) : Int :=
  if 0 ≤ e then m * pow2 e.toNat else m / pow2 (-e).toNat

/-- Whether the rational `q` equals the value `m * 2 ^ e`. -/
def dyadicEqRatB (m e : Int) (q : Rat) : Bool :=
  if 0 ≤ e then decide (m * pow2 e.toNat * (q.den : Int) = q.num)
  else decide (m * (q.den : Int) = q.num * pow2 (-e).toNat)

/-- Whether rounding `q` to binary64 succeeds and returns `q` itself. -/
def isDoubleB (q : Rat) : Bool :=
  match roundToDouble q.num q.den with
  | none => false
  | some (m, e) => dyadicEqRatB m e q

/-- `q` is a finite binary64 value: rounding it to binary64 returns it
unchanged. -/
def IsDouble (q : Rat) : Prop := isDoubleB q = true

instance instDecidableIsDouble (q : Rat) : Decidable (IsDouble q) :=
  inferInstanceAs (Decidable (isDoubleB q = true))

/-- The CSV header row (line 73). -/
def HEADER : List String :=
  ["last_updated_date", "nik_identifier", "name", "phone_number"]

/-- An invalid-shaped data row (lines 78-83 and 91-96). -/
def invalidRow (date : String) (i : Nat) : List String :=
  let nik_seed := make_nik 9000000000000000 i
  let phone := INVALID_PHONES.getD (i % INVALID_PHONES.length) ""
  let nik_value := if phone = "" then "" else nik_seed
  let name := INVALID_NAMES.getD (i % INVALID_NAMES.length) ""
  [date, nik_value, name, phone]

/-- A valid-shaped data row of `mixed` mode (lines 85-90). -/
def mixedValidRow (date : String) (i : Nat) : List String :=
  [date, make_nik 3200000000000000 i,
   VALID_NAMES.getD (i % VALID_NAMES.length) "",
   VALID_PHONES.getD (i % VALID_PHONES.length) ""]

/-- A `uniform` mode data row (lines 97-101). -/
def uniformRow (date : String) (i : Nat) : List String :=
  [date, make_nik 3100000000000000 i,
   String.append "PATIENT_" (pyStr (i + 1)),
   UNIFORM_PHONES.getD (i % UNIFORM_PHONES.length) ""]

/-- The body of the `for i in range(args.records)` loop of `build_rows`,
threading `valid_count` and the generator state. -/
def buildLoop (a : Args) (valid_target : Int) :
    List Nat → Nat → MTState → List (List String)
  | [], _, _ => []
  | i :: rest, valid_count, st =>
    match a.mode with
    | Mode.invalid =>
      invalidRow a.date i :: buildLoop a valid_target rest valid_count st
    | Mode.mixed =>
      if (valid_count : Int) < valid_target then
        mixedValidRow a.date i
          :: buildLoop a valid_target rest (valid_count + 1) st
      else
        invalidRow a.date i :: buildLoop a valid_target rest valid_count st
    | Mode.uniform =>
      uniformRow a.date i :: buildLoop a valid_target rest valid_count st
    | Mode.valid =>
      let pr := random_choice VALID_PHONES st
      let nr := random_choice VALID_NAMES pr.2
      [a.date, make_nik 3300000000000000 i, nr.1, pr.1]
        :: buildLoop a valid_target rest valid_count nr.2

/-- `valid_target = int(math.floor(args.records * args.valid_ratio))`
(line 74), computed with the IEEE-754 binary64 semantics of the CPython
line: convert the int to a double, multiply by the ratio's double, floor
the resulting double exactly.  `none` models the `OverflowError` raised
when the conversion or the product overflows the double range (the
program then writes nothing). -/
def valid_target (a : Args) : Option Int :=
  (floatOfInt a.records).bind fun me =>
    (mulRound me.1 me.2 a.valid_ratio).map fun me2 => dyadicFloor me2.1 me2.2

/-- `build_rows(args)` (lines 72-107): header plus one data row per loop
index; `valid_count` starts at 0, and `range(records)` is empty when
`records ≤ 0`.  On the (astronomically large) inputs where line 74 raises
`OverflowError` the program emits nothing at all; this total model
substitutes target 0 there, and the mixed-mode theorems hypothesize
`valid_target a = some vt` (line 74 succeeded). -/
def build_rows (a : Args) (rng : MTState) : List (List String) :=
  HEADER ::
    buildLoop a ((valid_target a).getD 0) (List.range a.records.toNat) 0 rng

/-- `write_csv` (lines 110-114), modelled by the written file content:
each row's fields joined by commas, plus a newline. -/
def write_csv (rows : List (List String)) : String :=
  String.join (rows.map (fun row => String.append (String.intercalate "," row) "\n"))

/-! ### `write_patients_json` (lines 117-150), modelled structurally -/

/-- One element of the `identifier` list. -/
structure FhirIdentifier where
  system : String
  value : String
deriving Repr, DecidableEq

/-- One element of the `name` list. -/
structure FhirName where
  use : String
  family : String
  given : List String
deriving Repr, DecidableEq

/-- The `meta` block. -/
structure FhirMeta where
  versionId : String
  lastUpdated : String
deriving Repr, DecidableEq

/-- The `resource` object of one bundle entry. -/
structure PatientResource where
  resourceType : String
  id : String
  active : Bool
  identifier : List FhirIdentifier
  name : List FhirName
  telecom : List String
  meta : FhirMeta
deriving Repr, DecidableEq

/-- One entry of the list: the single-key wrapper `resource`. -/
structure PatientEntry where
  resource : PatientResource
deriving Repr, DecidableEq

/-- The whole document: a mapping with the single key
`patients_before_phone_update`. -/
structure PatientsDoc where
  patients_before_phone_update : List PatientEntry
deriving Repr, DecidableEq

/-- The entry appended for loop index `i` (lines 120-148). -/
def patientEntry (i : Nat) : PatientEntry :=
  PatientEntry.mk
    (PatientResource.mk "Patient" (String.append "patient-" (pyStr (i + 1)))
      true
      [FhirIdentifier.mk "https://fhir.kemkes.go.id/id/nik"
        (make_nik 3000000000000000 i)]
      [FhirName.mk "official" (String.append "PATIENT_" (pyStr (i + 1)))
        ["TEST"]]
      []
      (FhirMeta.mk "v001" "2025-08-22T10:15:30.123456+07:00"))

/-- `write_patients_json(path, records)`, modelled by the document built
before serialization. -/
def write_patients_json (records : Int) : PatientsDoc :=
  PatientsDoc.mk ((List.range records.toNat).map patientEntry)

/-! ### Lemmas about decimal formatting -/

theorem digitChar_toNat {d : Nat} (hd : d < 10) : (digitChar d).toNat = 48 + d := by
  interval_cases d <;> rfl

theorem digitChar_isDigit {d : Nat} (hd : d < 10) : (digitChar d).isDigit = true := by
  interval_cases d <;> rfl

theorem digitsVal_append_singleton (l : List Char) (c : Char) :
    digitsVal (l ++ [c]) = 10 * digitsVal l + (c.toNat - 48) := by
  simp [digitsVal, List.foldl_append]

theorem digitsVal_aux (f : Nat) : ∀ n : Nat, n < 10 ^ f →
    digitsVal (decDigitsAux f n) = n := by
  induction f with
  | zero =>
    intro n hn
    have : n = 0 := by simpa using hn
    subst this
    rfl
  | succ f ih =>
    intro n hn
    by_cases h : n < 10
    · simp [decDigitsAux, h, digitsVal, digitChar_toNat h]
    · have hdiv : n / 10 < 10 ^ f := by
        rw [Nat.div_lt_iff_lt_mul (by norm_num)]
        calc n < 10 ^ (f + 1) := hn
        _ = 10 ^ f * 10 := by ring
      simp only [decDigitsAux, h, if_false]
      rw [digitsVal_append_singleton, ih _ hdiv,
        digitChar_toNat (Nat.mod_lt _ (by norm_num))]
      omega

theorem lt_ten_pow_succ (n : Nat) : n < 10 ^ (n + 1) := by
  calc n < 2 ^ n := Nat.lt_two_pow n
  _ ≤ 10 ^ n := Nat.pow_le_pow_left (by norm_num) n
  _ ≤ 10 ^ (n + 1) := Nat.pow_le_pow_right (by norm_num) (Nat.le_succ n)

theorem digitsVal_decDigits (n : Nat) : digitsVal (decDigits n) = n :=
  digitsVal_aux _ n (lt_ten_pow_succ n)

theorem digitsVal_replicate_zero (k : Nat) (l : List Char) :
    digitsVal (List.replicate k '0' ++ l) = digitsVal l := by
  induction k with
  | zero => rfl
  | succ k ih => simpa [digitsVal, List.replicate_succ] using ih

theorem strVal_make_nik (base idx : Nat) :
    strVal (make_nik base idx) = base + idx := by
  simp [strVal, make_nik, zfill16, digitsVal_replicate_zero, digitsVal_decDigits]

theorem make_nik_eq_iff (b₁ i₁ b₂ i₂ : Nat) :
    make_nik b₁ i₁ = make_nik b₂ i₂ → b₁ + i₁ = b₂ + i₂ := by
  intro h
  have := congrArg strVal h
  simpa [strVal_make_nik] using this

theorem decDigitsAux_length_le (f : Nat) : ∀ n k : Nat, n < 10 ^ f →
    n < 10 ^ k → (decDigitsAux f n).length ≤ max 1 k := by
  induction f with
  | zero => intro n k hf hk; simp [decDigitsAux]
  | succ f ih =>
    intro n k hf hk
    by_cases h : n < 10
    · simp [decDigitsAux, h]
    · have hk2 : 2 ≤ k := by
        by_contra hcon
        interval_cases k <;> omega
      have hdivf : n / 10 < 10 ^ f := by
        rw [Nat.div_lt_iff_lt_mul (by norm_num)]
        calc n < 10 ^ (f + 1) := hf
        _ = 10 ^ f * 10 := by ring
      have hdivk : n / 10 < 10 ^ (k - 1) := by
        rw [Nat.div_lt_iff_lt_mul (by norm_num)]
        calc n < 10 ^ k := hk
        _ = 10 ^ (k - 1) * 10 := by
            rw [← pow_succ]
            congr 1
            omega
      have := ih (n / 10) (k - 1) hdivf hdivk
      simp only [decDigitsAux, h, if_false, List.length_append,
        List.length_singleton]
      omega

theorem decDigitsAux_length_ge (f : Nat) : ∀ n k : Nat, n < 10 ^ f →
    10 ^ k ≤ n → k + 1 ≤ (decDigitsAux f n).length := by
  induction f with
  | zero =>
    intro n k hf hk
    have : n = 0 := by simpa using hf
    have hpos : 0 < 10 ^ k := by positivity
    omega
  | succ f ih =>
    intro n k hf hk
    by_cases h : n < 10
    · have hk0 : k = 0 := by
        by_contra hcon
        have : 10 ≤ 10 ^ k := by
          calc (10 : Nat) = 10 ^ 1 := (pow_one 10).symm
          _ ≤ 10 ^ k := Nat.pow_le_pow_right (by norm_num) (by omega)
        omega
      subst hk0
      simp [decDigitsAux, h]
    · simp only [decDigitsAux, h, if_false, List.length_append,
        List.length_singleton]
      match k with
      | 0 => omega
      | k + 1 =>
        have hdivf : n / 10 < 10 ^ f := by
          rw [Nat.div_lt_iff_lt_mul (by norm_num)]
          calc n < 10 ^ (f + 1) := hf
          _ = 10 ^ f * 10 := by ring
        have hdivk : 10 ^ k ≤ n / 10 := by
          rw [Nat.le_div_iff_mul_le (by norm_num)]
          calc 10 ^ k * 10 = 10 ^ (k + 1) := (pow_succ 10 k).symm
          _ ≤ n := hk
        have := ih (n / 10) k hdivf hdivk
        omega

theorem decDigits_length_le {n k : Nat} (hk : n < 10 ^ k) :
    (decDigits n).length ≤ max 1 k :=
  decDigitsAux_length_le _ n k (lt_ten_pow_succ n) hk

theorem make_nik_length {base idx : Nat} (h : base + idx < 10 ^ 16) :
    (make_nik base idx).length = 16 := by
  have hle : (decDigits (base + idx)).length ≤ 16 := by
    have := decDigits_length_le h
    omega
  simp only [make_nik, String.length, zfill16, List.length_append,
    List.length_replicate]
  omega

theorem mem_decDigitsAux_isDigit (f : Nat) : ∀ n : Nat, ∀ c ∈ decDigitsAux f n,
    c.isDigit = true := by
  induction f with
  | zero => intro n c hc; simp [decDigitsAux] at hc
  | succ f ih =>
    intro n c hc
    by_cases h : n < 10
    · simp [decDigitsAux, h] at hc
      subst hc
      exact digitChar_isDigit h
    · simp [decDigitsAux, h] at hc
      rcases hc with hc | hc
      · exact ih _ c hc
      · subst hc
        exact digitChar_isDigit (Nat.mod_lt _ (by norm_num))

theorem make_nik_isDigit (base idx : Nat) :
    ∀ c ∈ (make_nik base idx).data, c.isDigit = true := by
  intro c hc
  simp only [make_nik, zfill16, String.data, List.mem_append,
    List.mem_replicate] at hc
  rcases hc with hc | hc
  · rw [hc.2]; rfl
  · exact mem_decDigitsAux_isDigit _ _ c hc

theorem make_nik_ne_empty (base idx : Nat) : make_nik base idx ≠ "" := by
  intro h
  have hdata : zfill16 (decDigits (base + idx)) = [] := by
    have := congrArg String.data h
    simpa [make_nik] using this
  rcases List.append_eq_nil.mp hdata with ⟨h1, h2⟩
  rw [h2] at h1
  simp at h1

/-! ### Shape of the loop output, mode by mode -/

theorem buildLoop_invalid (a : Args) (vt : Int) (hm : a.mode = Mode.invalid) :
    ∀ (l : List Nat) (vc : Nat) (st : MTState),
      buildLoop a vt l vc st = l.map (invalidRow a.date) := by
  intro l
  induction l with
  | nil => intro vc st; rfl
  | cons i rest ih => intro vc st; simp [buildLoop, hm, ih]

theorem buildLoop_uniform (a : Args) (vt : Int) (hm : a.mode = Mode.uniform) :
    ∀ (l : List Nat) (vc : Nat) (st : MTState),
      buildLoop a vt l vc st = l.map (uniformRow a.date) := by
  intro l
  induction l with
  | nil => intro vc st; rfl
  | cons i rest ih => intro vc st; simp [buildLoop, hm, ih]

theorem buildLoop_mixed (a : Args) (vt : Int) (hm : a.mode = Mode.mixed) :
    ∀ (k s vc : Nat) (st : MTState),
      buildLoop a vt (List.range' s k) vc st =
        (List.range' s (min k (vt - vc).toNat)).map (mixedValidRow a.date)
          ++ (List.range' (s + min k (vt - vc).toNat)
                (k - min k (vt - vc).toNat)).map (invalidRow a.date) := by
  intro k
  induction k with
  | zero => intro s vc st; simp [List.range', buildLoop]
  | succ k ih =>
    intro s vc st
    rw [List.range'_succ]
    by_cases h : (vc : Int) < vt
    · simp only [buildLoop, hm, h, if_true]
      rw [ih (s + 1) (vc + 1) st]
      push_cast
      have hmin : min (k + 1) (vt - (vc : Int)).toNat
          = min k (vt - ((vc : Int) + 1)).toNat + 1 := by omega
      rw [hmin, List.range'_succ]
      have e1 : s + (min k (vt - ((vc : Int) + 1)).toNat + 1)
          = s + 1 + min k (vt - ((vc : Int) + 1)).toNat := by omega
      have e2 : k + 1 - (min k (vt - ((vc : Int) + 1)).toNat + 1)
          = k - min k (vt - ((vc : Int) + 1)).toNat := by omega
      rw [e1, e2]
      simp
    · have hz : (vt - (vc : Int)).toNat = 0 := by omega
      simp only [buildLoop, hm, h, if_false]
      rw [ih (s + 1) vc st, hz]
      simp [List.range'_succ]

/-- In `mixed` mode the data rows are the valid-shaped block followed by
the invalid-shaped block, split at `min records valid_target`. -/
theorem build_rows_mixed (a : Args) (rng : MTState) (hm : a.mode = Mode.mixed) :
    build_rows a rng =
      HEADER ::
        ((List.range' 0
              (min a.records.toNat ((valid_target a).getD 0).toNat)).map
            (mixedValidRow a.date)
          ++ (List.range' (min a.records.toNat ((valid_target a).getD 0).toNat)
                (a.records.toNat
                  - min a.records.toNat ((valid_target a).getD 0).toNat)).map
              (invalidRow a.date)) := by
  rw [build_rows, List.range_eq_range', buildLoop_mixed a _ hm]
  norm_num

/-! ### Access to mapped index ranges -/

theorem getD_map_range' {α : Type} (f : Nat → α) (d : α) {s n i : Nat}
    (h : i < n) : ((List.range' s n).map f).getD i d = f (s + i) := by
  have hlen : i < ((List.range' s n).map f).length := by
    simpa [List.length_range'] using h
  rw [List.getD_eq_getElem _ _ hlen, List.getElem_map]
  congr 1
  simp

theorem getD_map_range {α : Type} (f : Nat → α) (d : α) {n i : Nat}
    (h : i < n) : ((List.range n).map f).getD i d = f i := by
  rw [List.range_eq_range', getD_map_range' f d h, Nat.zero_add]

theorem countP_map_eq_length {α β : Type} (p : β → Bool) (f : α → β)
    (l : List α) (h : ∀ x ∈ l, p (f x) = true) :
    (l.map f).countP p = l.length := by
  rw [List.countP_map, List.countP_eq_length]
  intro x hx
  simpa [Function.comp] using h x hx

theorem countP_map_eq_zero {α β : Type} (p : β → Bool) (f : α → β)
    (l : List α) (h : ∀ x ∈ l, p (f x) = false) :
    (l.map f).countP p = 0 := by
  rw [List.countP_map, List.countP_eq_zero]
  intro x hx
  simp [Function.comp, h x hx]

/-! ### Row projections and pool facts -/

/-- Whether a data row's phone field is one of the five valid phones. -/
def phone_in_valid_pool (r : List String) : Bool :=
  decide (r.getD 3 "" ∈ VALID_PHONES)

theorem invalidRow_getD_phone (d : String) (i : Nat) :
    (invalidRow d i).getD 3 "" = INVALID_PHONES.getD (i % 6) "" := rfl

theorem invalidRow_getD_name (d : String) (i : Nat) :
    (invalidRow d i).getD 2 "" = INVALID_NAMES.getD (i % 4) "" := rfl

theorem invalidRow_getD_nik (d : String) (i : Nat) :
    (invalidRow d i).getD 1 ""
      = if INVALID_PHONES.getD (i % 6) "" = "" then ""
        else make_nik 9000000000000000 i := rfl

theorem mixedValidRow_getD_phone (d : String) (i : Nat) :
    (mixedValidRow d i).getD 3 "" = VALID_PHONES.getD (i % 5) "" := rfl

theorem mixedValidRow_getD_nik (d : String) (i : Nat) :
    (mixedValidRow d i).getD 1 "" = make_nik 3200000000000000 i := rfl

theorem valid_phone_getD_mem (i : Nat) :
    VALID_PHONES.getD (i % 5) "" ∈ VALID_PHONES := by
  have h : i % 5 < 5 := Nat.mod_lt _ (by norm_num)
  revert h
  generalize i % 5 = j
  intro h
  interval_cases j <;> decide

theorem invalid_phone_getD_not_mem (i : Nat) :
    INVALID_PHONES.getD (i % 6) "" ∉ VALID_PHONES := by
  have h : i % 6 < 6 := Nat.mod_lt _ (by norm_num)
  revert h
  generalize i % 6 = j
  intro h
  interval_cases j <;> decide

theorem phone_in_valid_pool_mixedValidRow (d : String) (i : Nat) :
    phone_in_valid_pool (mixedValidRow d i) = true := by
  simp only [phone_in_valid_pool, mixedValidRow_getD_phone, decide_eq_true_eq]
  exact valid_phone_getD_mem i

theorem phone_in_valid_pool_invalidRow (d : String) (i : Nat) :
    phone_in_valid_pool (invalidRow d i) = false := by
  simp only [phone_in_valid_pool, invalidRow_getD_phone,
    decide_eq_false_iff_not]
  exact invalid_phone_getD_not_mem i

/-- Number of valid-pool phones in a mixed-mode block pair. -/
theorem countP_mixed_blocks (d : String) (m k : Nat) :
    (((List.range' 0 m).map (mixedValidRow d)
        ++ (List.range' m k).map (invalidRow d)).countP phone_in_valid_pool)
      = m := by
  rw [List.countP_append,
    countP_map_eq_length _ _ _ (fun i _ => phone_in_valid_pool_mixedValidRow d i),
    countP_map_eq_zero _ _ _ (fun i _ => phone_in_valid_pool_invalidRow d i)]
  simp

/-- Row `j` of the mixed-mode block pair. -/
theorem mixed_blocks_getD (d : String) (m n j : Nat) (hmn : m ≤ n)
    (hj : j < n) :
    (((List.range' 0 m).map (mixedValidRow d)
        ++ (List.range' m (n - m)).map (invalidRow d)).getD j [])
      = if j < m then mixedValidRow d j else invalidRow d j := by
  have hlen : ((List.range' 0 m).map (mixedValidRow d)).length = m := by
    simp [List.length_range']
  by_cases h : j < m
  · rw [List.getD_append _ _ _ _ (by rw [hlen]; exact h),
      getD_map_range' _ _ h]
    simp [h]
  · rw [List.getD_append_right _ _ _ _ (by rw [hlen]; omega), hlen,
      getD_map_range' _ _ (show j - m < n - m by omega)]
    have : m + (j - m) = j := by omega
    rw [this]
    simp [h]

/-- Data row `j` of `build_rows` in mixed mode. -/
theorem build_rows_mixed_getD (a : Args) (rng : MTState)
    (hm : a.mode = Mode.mixed) {j : Nat} (hj : j < a.records.toNat) :
    ((build_rows a rng).drop 1).getD j []
      = if j < min a.records.toNat ((valid_target a).getD 0).toNat
          then mixedValidRow a.date j else invalidRow a.date j := by
  rw [build_rows_mixed a rng hm]
  simp only [List.drop_succ_cons, List.drop_zero]
  exact mixed_blocks_getD a.date _ _ j (Nat.min_le_left _ _) hj

/-! ### Claim theorems -/

/-- C4: in invalid mode, data row `i` has phone `INVALID_PHONES[i % 6]`
and name `INVALID_NAMES[i % 4]`, its NIK is empty iff its phone is empty,
and a nonempty NIK equals `make_nik 9_000_000_000_000_000 i`, i.e.
`zero-pad(9_000_000_000_000_000 + i, 16)`. -/
theorem c4_invalid_mode_rows (a : Args) (rng : MTState)
    (hm : a.mode = Mode.invalid) (i : Nat) (hi : i < a.records.toNat) :
    ((((build_rows a rng).drop 1).getD i []).getD 3 ""
        = INVALID_PHONES.getD (i % 6) "") ∧
    ((((build_rows a rng).drop 1).getD i []).getD 2 ""
        = INVALID_NAMES.getD (i % 4) "") ∧
    ((((build_rows a rng).drop 1).getD i []).getD 1 "" = ""
        ↔ (((build_rows a rng).drop 1).getD i []).getD 3 "" = "") ∧
    ((((build_rows a rng).drop 1).getD i []).getD 3 "" ≠ ""
        → (((build_rows a rng).drop 1).getD i []).getD 1 ""
            = make_nik 9000000000000000 i) := by
  have hrow : ((build_rows a rng).drop 1).getD i [] = invalidRow a.date i := by
    rw [build_rows, buildLoop_invalid a _ hm]
    simp only [List.drop_succ_cons, List.drop_zero]
    exact getD_map_range _ _ hi
  rw [hrow, invalidRow_getD_phone, invalidRow_getD_name, invalidRow_getD_nik]
  refine ⟨rfl, rfl, ⟨?_, ?_⟩, ?_⟩
  · intro hnik
    by_contra hp
    rw [if_neg hp] at hnik
    exact make_nik_ne_empty _ _ hnik
  · intro hp
    rw [if_pos hp]
  · intro hp
    rw [if_neg hp]

theorem c4_invalid_mode_rows_witness :
    (Args.mk 3 Mode.invalid (1/2) "22-08-2025").mode = Mode.invalid ∧
    1 < (3 : Int).toNat ∧
    ((((build_rows (Args.mk 3 Mode.invalid (1/2) "22-08-2025")
          (MTState.mk 0 0)).drop 1).getD 1 []).getD 3 ""
        = INVALID_PHONES.getD (1 % 6) "") :=
  ⟨rfl, by decide, (c4_invalid_mode_rows _ _ rfl 1 (by decide)).1⟩

/-- C5: in uniform mode, data row `i` is the date, the NIK from base
3_100_000_000_000_000, the name `PATIENT_<i+1>`, and the phone
`UNIFORM_PHONES[i % 5]`; with `records = 5` the phone column is exactly
the five pool values in order and the name column is
`PATIENT_1 .. PATIENT_5`. -/
theorem c5_uniform_mode_rows (a : Args) (rng : MTState)
    (hm : a.mode = Mode.uniform) :
    (∀ i, i < a.records.toNat →
      ((build_rows a rng).drop 1).getD i []
        = [a.date, make_nik 3100000000000000 i,
           String.append "PATIENT_" (pyStr (i + 1)),
           UNIFORM_PHONES.getD (i % 5) ""]) ∧
    (a.records = 5 →
      ((build_rows a rng).drop 1).map (fun r => r.getD 3 "")
          = ["081234567890", "6285678901234", "082345678901",
             "0834-5678-9012", "85678901234"] ∧
        ((build_rows a rng).drop 1).map (fun r => r.getD 2 "")
          = ["PATIENT_1", "PATIENT_2", "PATIENT_3", "PATIENT_4",
             "PATIENT_5"]) := by
  have hdata : (build_rows a rng).drop 1
      = (List.range a.records.toNat).map (uniformRow a.date) := by
    rw [build_rows, buildLoop_uniform a _ hm]
    simp only [List.drop_succ_cons, List.drop_zero]
  constructor
  · intro i hi
    rw [hdata, getD_map_range _ _ hi]
    rfl
  · intro h5
    rw [hdata, h5]
    exact ⟨rfl, rfl⟩

theorem c5_uniform_mode_rows_witness :
    (Args.mk 5 Mode.uniform (1/2) "22-08-2025").mode = Mode.uniform ∧
    ((build_rows (Args.mk 5 Mode.uniform (1/2) "22-08-2025")
        (MTState.mk 0 0)).drop 1).map (fun r => r.getD 3 "")
      = ["081234567890", "6285678901234", "082345678901",
         "0834-5678-9012", "85678901234"] :=
  ⟨rfl, ((c5_uniform_mode_rows _ _ rfl).2 rfl).1⟩

/-- The exact-arithmetic floor of an int-times-rational product, as
integer division; used to state what the claims' literal
`floor(records * valid_ratio)` evaluates to at the counterexamples. -/
theorem floor_intCast_mul_rat (r : Int) (q : Rat) :
    Int.floor ((r : Rat) * q) = (r * q.num) / (q.den : Int) := by
  have hprod : (r : Rat) * q
      = ((r * q.num : Int) : Rat) / ((q.den : Nat) : Rat) := by
    calc (r : Rat) * q
        = (r : Rat) * ((q.num : Rat) / (q.den : Rat)) := by
          rw [Rat.num_div_den]
    _ = ((r * q.num : Int) : Rat) / ((q.den : Nat) : Rat) := by
          push_cast
          ring
  rw [hprod, Rat.floor_intCast_div_natCast]

theorem pow2_nonneg (k : Nat) : 0 ≤ pow2 k := Int.natCast_nonneg _

theorem dyadicFloor_nonneg {m e : Int} (h : 0 ≤ m) :
    0 ≤ dyadicFloor m e := by
  unfold dyadicFloor
  split
  · exact mul_nonneg h (pow2_nonneg _)
  · exact Int.ediv_nonneg h (pow2_nonneg _)

theorem applySign_nonneg {s : Int} {m : Nat} (h : 0 ≤ s) :
    0 ≤ applySign s m := by
  unfold applySign
  rw [if_neg (by omega)]
  positivity

theorem roundToDouble_fst_nonneg {num : Int} {den : Nat} {m e : Int}
    (h : 0 ≤ num) (hr : roundToDouble num den = some (m, e)) : 0 ≤ m := by
  obtain ⟨⟨mN, eN⟩, -, hfe⟩ := Option.map_eq_some'.mp hr
  obtain ⟨hm, -⟩ := Prod.mk.injEq .. |>.mp hfe
  rw [← hm]
  exact applySign_nonneg h

theorem mulRound_fst_nonneg {m1 e1 : Int} {q : Rat} {m e : Int}
    (h1 : 0 ≤ m1) (hq : 0 ≤ q.num)
    (hr : mulRound m1 e1 q = some (m, e)) : 0 ≤ m := by
  obtain ⟨⟨mN, eN⟩, -, hfe⟩ := Option.map_eq_some'.mp hr
  obtain ⟨hm, -⟩ := Prod.mk.injEq .. |>.mp hfe
  rw [← hm]
  exact applySign_nonneg (mul_nonneg h1 hq)

/-- When line 74 succeeds with a nonnegative record count and a
nonnegative ratio, the computed target is nonnegative. -/
theorem valid_target_nonneg (a : Args) (h0 : 0 ≤ a.records)
    (hr0 : 0 ≤ a.valid_ratio) {vt : Int}
    (hvt : valid_target a = some vt) : 0 ≤ vt := by
  obtain ⟨⟨m1, e1⟩, h1, h2⟩ := Option.bind_eq_some.mp hvt
  obtain ⟨⟨m2, e2⟩, h3, h4⟩ := Option.map_eq_some'.mp h2
  rw [← h4]
  refine dyadicFloor_nonneg (mulRound_fst_nonneg ?_ ?_ h3)
  · exact roundToDouble_fst_nonneg h0 h1
  · exact Rat.num_nonneg.mpr hr0

set_option maxRecDepth 100000 in
/-- C2 counterexample: the claim as stated reads
`floor(records * valid_ratio)` as exact real arithmetic, but line 74
multiplies IEEE doubles.  With `records = 3` and
`valid_ratio = float("0.3333333333333333") = 6004799503160661 / 2^54`
(a float in [0.0, 1.0]), the double product is exactly 1.0 and the
program emits one valid-pool row, while the exact floor of the very same
product is 0. -/
theorem c2_exact_floor_claim_fails :
    ¬ ((((build_rows (Args.mk 3 Mode.mixed
            (mkRat 6004799503160661 18014398509481984) "22-08-2025")
          (MTState.mk 0 0)).drop 1).countP phone_in_valid_pool : Int)
        = Int.floor (((3 : Int) : Rat)
            * mkRat 6004799503160661 18014398509481984)) := by
  have hcount : ((build_rows (Args.mk 3 Mode.mixed
        (mkRat 6004799503160661 18014398509481984) "22-08-2025")
      (MTState.mk 0 0)).drop 1).countP phone_in_valid_pool = 1 := by
    decide
  have hfloor : Int.floor (((3 : Int) : Rat)
      * mkRat 6004799503160661 18014398509481984) = 0 := by
    rw [floor_intCast_mul_rat]
    decide
  rw [hcount, hfloor]
  omega

/-- C2 (amended): in mixed mode with a record count ≥ 0, a binary64
valid_ratio in [0, 1], and line 74 succeeding with target `vt` — the
floor of the IEEE-double product, which can differ from the exact
`floor(records * valid_ratio)` — exactly `min records vt` data rows carry
a phone from the valid pool, and the data rows are precisely that many
valid-shaped rows followed only by invalid-shaped rows (the split is by
count, not interleaved; the `min` is forced because the rounded product
can exceed `records` near 2^53). -/
theorem c2_mixed_float_floor_split (a : Args) (rng : MTState)
    (hm : a.mode = Mode.mixed) (h0 : 0 ≤ a.records)
    (hr0 : 0 ≤ a.valid_ratio) (hr1 : a.valid_ratio ≤ 1)
    (hd : IsDouble a.valid_ratio) (vt : Int)
    (hvt : valid_target a = some vt) :
    ((((build_rows a rng).drop 1).countP phone_in_valid_pool : Int)
        = min a.records vt) ∧
    ((build_rows a rng).drop 1).take (min a.records.toNat vt.toNat)
        = (List.range (min a.records.toNat vt.toNat)).map
            (mixedValidRow a.date) ∧
    ((build_rows a rng).drop 1).drop (min a.records.toNat vt.toNat)
        = (List.range' (min a.records.toNat vt.toNat)
            (a.records.toNat - min a.records.toNat vt.toNat)).map
            (invalidRow a.date) := by
  have hvt0 : 0 ≤ vt := valid_target_nonneg a h0 hr0 hvt
  have hgd : (valid_target a).getD 0 = vt := by rw [hvt]; rfl
  have hdata : (build_rows a rng).drop 1
      = (List.range' 0 (min a.records.toNat vt.toNat)).map
          (mixedValidRow a.date)
        ++ (List.range' (min a.records.toNat vt.toNat)
            (a.records.toNat - min a.records.toNat vt.toNat)).map
            (invalidRow a.date) := by
    rw [build_rows_mixed a rng hm, hgd]
    simp only [List.drop_succ_cons, List.drop_zero]
  have hlen : ((List.range' 0 (min a.records.toNat vt.toNat)).map
      (mixedValidRow a.date)).length = min a.records.toNat vt.toNat := by
    simp [List.length_range']
  refine ⟨?_, ?_, ?_⟩
  · rw [hdata, countP_mixed_blocks]
    omega
  · rw [hdata, List.take_left' hlen, List.range_eq_range']
  · rw [hdata, List.drop_left' hlen]

theorem c2_mixed_float_floor_split_witness :
    (Args.mk 4 Mode.mixed (mkRat 1 2) "22-08-2025").mode = Mode.mixed ∧
    0 ≤ (4 : Int) ∧ (0 : Rat) ≤ mkRat 1 2 ∧ mkRat 1 2 ≤ (1 : Rat) ∧
    IsDouble (mkRat 1 2) ∧
    valid_target (Args.mk 4 Mode.mixed (mkRat 1 2) "22-08-2025")
      = some 2 ∧
    ((((build_rows (Args.mk 4 Mode.mixed (mkRat 1 2) "22-08-2025")
          (MTState.mk 0 0)).drop 1).countP phone_in_valid_pool : Int)
        = min (4 : Int) 2) :=
  ⟨rfl, by decide, by decide, by decide, by decide, by decide,
    (c2_mixed_float_floor_split _ _ rfl (by decide) (by decide) (by decide)
      (by decide) 2 (by decide)).1⟩

set_option maxRecDepth 100000 in
/-- C10 counterexample: the claim's formula
`min(records, max(0, floor(records * valid_ratio)))` reads the floor as
exact real arithmetic; at `records = 3`,
`valid_ratio = float("0.3333333333333333")` the program emits one
valid-shaped row but the exact formula gives 0. -/
theorem c10_exact_formula_fails :
    ¬ ((((build_rows (Args.mk 3 Mode.mixed
            (mkRat 6004799503160661 18014398509481984) "23-08-2025")
          (MTState.mk 0 0)).drop 1).countP phone_in_valid_pool : Int)
        = min (3 : Int) (max 0 (Int.floor (((3 : Int) : Rat)
            * mkRat 6004799503160661 18014398509481984)))) := by
  have hcount : ((build_rows (Args.mk 3 Mode.mixed
        (mkRat 6004799503160661 18014398509481984) "23-08-2025")
      (MTState.mk 0 0)).drop 1).countP phone_in_valid_pool = 1 := by
    decide
  have hfloor : Int.floor (((3 : Int) : Rat)
      * mkRat 6004799503160661 18014398509481984) = 0 := by
    rw [floor_intCast_mul_rat]
    decide
  rw [hcount, hfloor]
  omega

/-- C10 (amended): `build_rows` in mixed mode accepts any finite binary64
valid_ratio, including values outside [0.0, 1.0] — `--valid-ratio` is
never range-checked at argument parsing — and whenever line 74 succeeds
(no overflow) with target `vt`, the number of valid-shaped records equals
`min records (max 0 vt)`, where `vt` is the floor of the IEEE-double
product: a ratio above 1 makes every record valid-shaped, a negative
ratio none. -/
theorem c10_float_formula_min_clamp (a : Args) (rng : MTState)
    (hm : a.mode = Mode.mixed) (h0 : 0 ≤ a.records)
    (hd : IsDouble a.valid_ratio) (vt : Int)
    (hvt : valid_target a = some vt) :
    (((build_rows a rng).drop 1).countP phone_in_valid_pool : Int)
      = min a.records (max 0 vt) := by
  have hgd : (valid_target a).getD 0 = vt := by rw [hvt]; rfl
  have hdata : (build_rows a rng).drop 1
      = (List.range' 0 (min a.records.toNat vt.toNat)).map
          (mixedValidRow a.date)
        ++ (List.range' (min a.records.toNat vt.toNat)
            (a.records.toNat - min a.records.toNat vt.toNat)).map
            (invalidRow a.date) := by
    rw [build_rows_mixed a rng hm, hgd]
    simp only [List.drop_succ_cons, List.drop_zero]
  rw [hdata, countP_mixed_blocks]
  omega

theorem c10_float_formula_min_clamp_witness :
    (Args.mk 4 Mode.mixed (mkRat 7 2) "22-08-2025").mode = Mode.mixed ∧
    0 ≤ (4 : Int) ∧ IsDouble (mkRat 7 2) ∧
    valid_target (Args.mk 4 Mode.mixed (mkRat 7 2) "22-08-2025")
      = some 14 ∧
    ((((build_rows (Args.mk 4 Mode.mixed (mkRat 7 2) "22-08-2025")
          (MTState.mk 0 0)).drop 1).countP phone_in_valid_pool : Int)
        = min (4 : Int) (max 0 14)) :=
  ⟨rfl, by decide, by decide, by decide,
    c10_float_formula_min_clamp _ _ rfl (by decide) (by decide) 14
      (by decide)⟩

/-- C9: in mixed mode (record count ≥ 0, ratio in [0, 1]), any two
distinct data rows with nonempty NIK fields have distinct NIK values:
valid-shaped rows encode `3_200_000_000_000_000 + index`, invalid-shaped
rows `9_000_000_000_000_000 + index`, and valid indices all precede
invalid indices, so the encoded values never coincide. -/
theorem c9_mixed_niks_distinct (a : Args) (rng : MTState)
    (hm : a.mode = Mode.mixed) (h0 : 0 ≤ a.records)
    (hr0 : 0 ≤ a.valid_ratio) (hr1 : a.valid_ratio ≤ 1)
    (p q : Nat) (hp : p < a.records.toNat) (hq : q < a.records.toNat)
    (hpq : p ≠ q)
    (hnp : (((build_rows a rng).drop 1).getD p []).getD 1 "" ≠ "")
    (hnq : (((build_rows a rng).drop 1).getD q []).getD 1 "" ≠ "") :
    (((build_rows a rng).drop 1).getD p []).getD 1 ""
      ≠ (((build_rows a rng).drop 1).getD q []).getD 1 "" := by
  have hrp := build_rows_mixed_getD a rng hm hp
  have hrq := build_rows_mixed_getD a rng hm hq
  set m := min a.records.toNat ((valid_target a).getD 0).toNat with hmdef
  rw [hrp] at hnp ⊢
  rw [hrq] at hnq ⊢
  by_cases h1 : p < m <;> by_cases h2 : q < m
  · rw [if_pos h1, if_pos h2, mixedValidRow_getD_nik, mixedValidRow_getD_nik]
    intro heq
    have := make_nik_eq_iff _ _ _ _ heq
    omega
  · rw [if_pos h1, if_neg h2, mixedValidRow_getD_nik, invalidRow_getD_nik]
    rw [if_neg h2, invalidRow_getD_nik] at hnq
    by_cases hq6 : INVALID_PHONES.getD (q % 6) "" = ""
    · rw [if_pos hq6] at hnq
      exact absurd rfl hnq
    · rw [if_neg hq6]
      intro heq
      have := make_nik_eq_iff _ _ _ _ heq
      omega
  · rw [if_neg h1, if_pos h2, invalidRow_getD_nik, mixedValidRow_getD_nik]
    rw [if_neg h1, invalidRow_getD_nik] at hnp
    by_cases hp6 : INVALID_PHONES.getD (p % 6) "" = ""
    · rw [if_pos hp6] at hnp
      exact absurd rfl hnp
    · rw [if_neg hp6]
      intro heq
      have := make_nik_eq_iff _ _ _ _ heq
      omega
  · rw [if_neg h1, if_neg h2, invalidRow_getD_nik, invalidRow_getD_nik]
    rw [if_neg h1, invalidRow_getD_nik] at hnp
    rw [if_neg h2, invalidRow_getD_nik] at hnq
    by_cases hp6 : INVALID_PHONES.getD (p % 6) "" = ""
    · rw [if_pos hp6] at hnp
      exact absurd rfl hnp
    · by_cases hq6 : INVALID_PHONES.getD (q % 6) "" = ""
      · rw [if_pos hq6] at hnq
        exact absurd rfl hnq
      · rw [if_neg hp6, if_neg hq6]
        intro heq
        have := make_nik_eq_iff _ _ _ _ heq
        omega

theorem c9_mixed_niks_distinct_witness :
    (Args.mk 4 Mode.mixed (mkRat 1 2) "22-08-2025").mode = Mode.mixed ∧
    0 ≤ (4 : Int) ∧ (0 : Rat) ≤ mkRat 1 2 ∧ mkRat 1 2 ≤ (1 : Rat) ∧
    (0 : Nat) < (4 : Int).toNat ∧ (3 : Nat) < (4 : Int).toNat ∧
    (0 : Nat) ≠ 3 ∧
    ((((build_rows (Args.mk 4 Mode.mixed (mkRat 1 2) "22-08-2025")
          (MTState.mk 0 0)).drop 1).getD 0 []).getD 1 "" ≠ "") ∧
    ((((build_rows (Args.mk 4 Mode.mixed (mkRat 1 2) "22-08-2025")
          (MTState.mk 0 0)).drop 1).getD 3 []).getD 1 "" ≠ "") ∧
    ((((build_rows (Args.mk 4 Mode.mixed (mkRat 1 2) "22-08-2025")
          (MTState.mk 0 0)).drop 1).getD 0 []).getD 1 ""
      ≠ (((build_rows (Args.mk 4 Mode.mixed (mkRat 1 2) "22-08-2025")
          (MTState.mk 0 0)).drop 1).getD 3 []).getD 1 "") :=
  ⟨rfl, by decide, by decide, by decide, by decide, by decide, by decide,
    by decide, by decide,
    c9_mixed_niks_distinct _ _ rfl (by decide) (by decide) (by decide)
      0 3 (by decide) (by decide) (by decide) (by decide) (by decide)⟩

/-- C6 (amended): whenever `base + idx < 10^16` — true for every mode's
base as long as fewer than about 10^15 records are requested — the NIK is
exactly 16 characters, all decimal digits, zero-padded; unconditionally it
encodes the value `base + idx`, so within one base distinct indices always
yield distinct NIK strings. -/
theorem c6_nik_shape_and_uniqueness (base idx : Nat) :
    (base + idx < 10 ^ 16 →
      (make_nik base idx).length = 16
        ∧ ∀ c ∈ (make_nik base idx).data, c.isDigit = true) ∧
    strVal (make_nik base idx) = base + idx ∧
    (∀ j : Nat, j ≠ idx → make_nik base j ≠ make_nik base idx) := by
  refine ⟨fun h => ⟨make_nik_length h, make_nik_isDigit base idx⟩,
    strVal_make_nik base idx, ?_⟩
  intro j hj heq
  have := make_nik_eq_iff _ _ _ _ heq
  omega

theorem c6_nik_shape_and_uniqueness_witness :
    9000000000000000 + 5 < 10 ^ 16
      ∧ (make_nik 9000000000000000 5).length = 16 :=
  ⟨by decide,
    ((c6_nik_shape_and_uniqueness 9000000000000000 5).1 (by decide)).1⟩

/-- C6 counterexample: the claim as stated ("the NIK is exactly 16 decimal
digits" for every emitted record) fails: in uniform mode with
6_900_000_000_000_001 records, the data row at index 6_900_000_000_000_000
has the nonempty NIK `make_nik 3_100_000_000_000_000 6_900_000_000_000_000`
= "10000000000000000", which has 17 digits (`f"{x:016d}"` pads to a minimum
width and never truncates). -/
theorem c6_sixteen_digit_claim_fails :
    ((((build_rows (Args.mk 6900000000000001 Mode.uniform (mkRat 1 2)
          "22-08-2025") (MTState.mk 0 0)).drop 1).getD
            6900000000000000 []).getD 1 "" ≠ "") ∧
    (((((build_rows (Args.mk 6900000000000001 Mode.uniform (mkRat 1 2)
          "22-08-2025") (MTState.mk 0 0)).drop 1).getD
            6900000000000000 []).getD 1 "").length = 17) := by
  have hdata : (build_rows (Args.mk 6900000000000001 Mode.uniform (mkRat 1 2)
        "22-08-2025") (MTState.mk 0 0)).drop 1
      = (List.range ((6900000000000001 : Int)).toNat).map
          (uniformRow "22-08-2025") := by
    rw [build_rows, buildLoop_uniform _ _ rfl]
    simp only [List.drop_succ_cons, List.drop_zero]
  have hlt : (6900000000000000 : Nat) < ((6900000000000001 : Int)).toNat := by
    decide
  rw [hdata, getD_map_range _ _ hlt]
  exact ⟨by decide, by decide⟩

/-- C7: for every record count ≥ 0, the patients document maps its single
key to exactly `records` entries, and entry `i` has id `patient-<i+1>`,
the NIK identifier system and value `zero-pad(3_000_000_000_000_000 + i)`,
an empty telecom list, and the constant meta block. -/
theorem c7_patients_json_shape (records : Int) (h : 0 ≤ records) :
    (((write_patients_json records).patients_before_phone_update.length : Int)
        = records) ∧
    ∀ i, i < records.toNat →
      ((write_patients_json records).patients_before_phone_update.getD i
          (patientEntry 0)).resource.id
          = String.append "patient-" (pyStr (i + 1)) ∧
      ((write_patients_json records).patients_before_phone_update.getD i
          (patientEntry 0)).resource.identifier
          = [FhirIdentifier.mk "https://fhir.kemkes.go.id/id/nik"
              (make_nik 3000000000000000 i)] ∧
      ((write_patients_json records).patients_before_phone_update.getD i
          (patientEntry 0)).resource.telecom = [] ∧
      ((write_patients_json records).patients_before_phone_update.getD i
          (patientEntry 0)).resource.meta
          = FhirMeta.mk "v001" "2025-08-22T10:15:30.123456+07:00" := by
  constructor
  · simp only [write_patients_json, List.length_map, List.length_range]
    omega
  · intro i hi
    have hent : (write_patients_json records).patients_before_phone_update.getD
        i (patientEntry 0) = patientEntry i := by
      rw [write_patients_json]
      exact getD_map_range _ _ hi
    rw [hent]
    exact ⟨rfl, rfl, rfl, rfl⟩

theorem c7_patients_json_shape_witness :
    0 ≤ (2 : Int) ∧ 1 < (2 : Int).toNat ∧
    ((write_patients_json 2).patients_before_phone_update.getD 1
        (patientEntry 0)).resource.id = String.append "patient-" (pyStr 2) :=
  ⟨by decide, by decide,
    ((c7_patients_json_shape 2 (by decide)).2 1 (by decide)).1⟩

set_option maxRecDepth 100000 in
/-- C3: the generator output is a pure function of the configuration and
the seed. With the MT19937 state seeded from 42 exactly as CPython's
`random.seed(42)` does, mode `valid`, and `records = 5`, the rows are the
fixed list below for any date argument, and any two runs from that seed
produce identical CSV bytes. -/
theorem c3_valid_mode_deterministic :
    ∀ (d : String) (st₁ st₂ : MTState),
      st₁ = seedMT [42] → st₂ = seedMT [42] →
      build_rows (Args.mk 5 Mode.valid (mkRat 1 2) d) st₁
        = [HEADER,
           [d, "3300000000000000", "DEWI LESTARI SARI", "081234567890"],
           [d, "3300000000000001", "MAYA SARI PUTRI", "082345678901"],
           [d, "3300000000000002", "MAYA SARI PUTRI", "085678901234"],
           [d, "3300000000000003", "DEWI LESTARI SARI", "081234567890"],
           [d, "3300000000000004", "LINDA MARLINA SIREGAR", "087890123456"]]
      ∧ write_csv (build_rows (Args.mk 5 Mode.valid (mkRat 1 2) d) st₁)
          = write_csv (build_rows (Args.mk 5 Mode.valid (mkRat 1 2) d) st₂) := by
  intro d st₁ st₂ h₁ h₂
  subst h₁
  subst h₂
  exact ⟨rfl, rfl⟩

theorem c3_valid_mode_deterministic_witness :
    seedMT [42] = seedMT [42] ∧
    (build_rows (Args.mk 5 Mode.valid (mkRat 1 2) "22-08-2025") (seedMT [42])
        = [HEADER,
           ["22-08-2025", "3300000000000000", "DEWI LESTARI SARI",
            "081234567890"],
           ["22-08-2025", "3300000000000001", "MAYA SARI PUTRI",
            "082345678901"],
           ["22-08-2025", "3300000000000002", "MAYA SARI PUTRI",
            "085678901234"],
           ["22-08-2025", "3300000000000003", "DEWI LESTARI SARI",
            "081234567890"],
           ["22-08-2025", "3300000000000004", "LINDA MARLINA SIREGAR",
            "087890123456"]]
      ∧ write_csv (build_rows (Args.mk 5 Mode.valid (mkRat 1 2) "22-08-2025")
            (seedMT [42]))
          = write_csv (build_rows (Args.mk 5 Mode.valid (mkRat 1 2)
              "22-08-2025") (seedMT [42]))) :=
  ⟨rfl, c3_valid_mode_deterministic "22-08-2025" _ _ rfl rfl⟩

end WhatsappGen
